import Mathlib

/-!
# Verification of the s3-buddy mapping manager

A shallow embedding, in Lean 4, of the core of the `s3-buddy` repository:
the mapping data model and URL parsers (`src/types.rs`, `src/config.rs`),
the object-key composition and request router of the proxy variant
(`src/server.rs`), and the mapping lifecycle manager with its per-mapping
background refresh tasks (`src/manager.rs`).

Conventions of the embedding:
* Rust `String` values are represented by Lean `String`/`List Char`
  (the parsers and key composition work on `List Char`, with the string
  turned into its character list at the call boundary).
* `Uuid` is represented by `Nat`; `DateTime<Utc>` timestamps and
  `Duration` values are represented by `Nat` (seconds); every operation
  that calls `Utc::now()` takes the current time as an explicit argument.
* `HashMap` tables are represented by association lists with
  lookup/insert/remove/update operations mirroring map semantics.
* Fallible Rust functions (`anyhow::Result`) are represented with
  `Except String` carrying the literal error message of the source, and
  `Option` where the source returns `Option`.
* The external collaborators (S3 presigned-URL provider, Route53 DNS
  publisher) are abstracted as function parameters returning arbitrary
  `Except` outcomes, so theorems quantify over every outcome of the
  external calls.

The repository contains superseded revisions of some modules; the fields
of `Mapping` are taken from the revision that `src/manager.rs` and
`src/server.rs` actually use (`id`, `s3_url`, `short_url`,
`hosted_zone_id`, `status`, `presign_duration_secs`, timestamps,
`last_refresh`, `next_refresh`, `last_error`).
-/

namespace S3Buddy

/-- Status of a mapping (src/types.rs, `MappingStatus`). -/
inductive MappingStatus
  | Pending
  | Active
  | Paused
  | Error
deriving DecidableEq, Repr

/-- `Display` for `MappingStatus` (src/types.rs, `impl Display`). -/
def MappingStatus.display : MappingStatus → String
  | .Pending => "Pending"
  | .Active => "Active"
  | .Paused => "Paused"
  | .Error => "Error"

/-- The mapping record (src/types.rs `Mapping`, with the fields used by the
manager/server revision: `hosted_zone_id`, `refresh_interval`,
`last_refresh`, `next_refresh` appear there in addition to the fields of
the checked-in `types.rs`). `refresh_interval_secs` embeds the value of
`mapping.refresh_interval()`, `presign_duration_secs` the value of
`mapping.presign_duration()`, in seconds. -/
structure Mapping where
  id : Nat
  s3_url : String
  short_url : String
  hosted_zone_id : String
  status : MappingStatus
  presign_duration_secs : Nat
  refresh_interval_secs : Nat
  created_at : Nat
  updated_at : Nat
  last_refresh : Option Nat
  next_refresh : Option Nat
  last_error : Option String
deriving DecidableEq, Repr

/-- A refresh log record (src/types.rs, `RefreshLog`). -/
structure RefreshLog where
  mapping_id : Nat
  timestamp : Nat
  success : Bool
  message : String
deriving DecidableEq, Repr

/-! ## String primitives

Character-list versions of the Rust string operations the source uses. -/

/-- Rust `str::strip_prefix`, on character lists: returns the remainder of
the second list after removing the first list as a leading segment, or
`none` when the first list is not a leading segment of it. -/
def stripPrefixChars : List Char → List Char → Option (List Char)
  | [], l => some l
  | _ :: _, [] => none
  | p :: ps, c :: cs => if p = c then stripPrefixChars ps cs else none

/-- Rust `str::starts_with` on `String`s (checks that the second string is
a leading segment of the first). -/
def strStartsWith (s p : String) : Bool :=
  (stripPrefixChars p.toList s.toList).isSome

/-- Rust `str::trim_start_matches('/')`: removes every leading `'/'`. -/
def trimLeadSlashChars (l : List Char) : List Char :=
  l.dropWhile (fun c => c == '/')

/-- Rust `str::trim_end_matches('/')`: removes every trailing `'/'`. -/
def trimTrailSlashChars (l : List Char) : List Char :=
  (l.reverse.dropWhile (fun c => c == '/')).reverse

/-! ## The two storage-URL parsers -/

/-- src/types.rs, `Mapping::parse_s3_url` (lines 55-70), on the character
list of the mapping's `s3_url`: strip the `s3://` scheme, split at the
first `'/'` (`splitn(2, '/')`); the part before it is the bucket, the part
after it the base key (empty when there is no `'/'`). -/
def mapping_parse_chars (l : List Char) : Option (List Char × List Char) :=
  match stripPrefixChars "s3://".toList l with
  | none => none
  | some url =>
    match url.dropWhile (fun c => c != '/') with
    | [] => some (url.takeWhile (fun c => c != '/'), [])
    | _ :: key => some (url.takeWhile (fun c => c != '/'), key)

/-- src/config.rs, `Config::parse_s3_url` (lines 35-47): as
`mapping_parse_chars`, but the URL must contain a `'/'` after the scheme
(`parts.len() != 2` is rejected), and the failures carry the source's
error messages. -/
def config_parse_chars (l : List Char) : Except String (List Char × List Char) :=
  match stripPrefixChars "s3://".toList l with
  | none => .error "Invalid S3 URL format"
  | some url =>
    match url.dropWhile (fun c => c != '/') with
    | [] => .error "S3 URL must include bucket and key: s3://bucket/key"
    | _ :: key => .ok (url.takeWhile (fun c => c != '/'), key)

/-! ## Proxy-variant object-key composition (src/server.rs, lines 207-220) -/

/-- The composed object key of the proxy handler: the request path is
trimmed of every leading `'/'`; if the mapping's base key is empty the
trimmed path is the key; otherwise the base key is trimmed of every
trailing `'/'` and, when the trimmed path is non-empty, joined to it with
a single `'/'`. -/
def composeKeyChars (base_key req_path : List Char) : List Char :=
  let request_path := trimLeadSlashChars req_path
  if base_key = [] then request_path
  else
    let base := trimTrailSlashChars base_key
    if request_path = [] then base
    else base ++ '/' :: request_path

/-- Modelled from the spec sentence behind claim C2 (spec §4.3, step 2,
proxy variant), for comparison with `composeKeyChars`: `key_prefix` and
the stripped request path joined with exactly one `'/'` inserted between
them only when `key_prefix` does not already end in `'/'`; a `key_prefix`
already ending in `'/'` is concatenated literally with no separator
inserted and nothing removed; an empty `key_prefix` yields the stripped
path, an empty stripped path yields `key_prefix` trimmed of trailing
`'/'`. -/
def specComposedKeyC2 (kpref req_path : List Char) : List Char :=
  let p := trimLeadSlashChars req_path
  if kpref = [] then p
  else if p = [] then trimTrailSlashChars kpref
  else if kpref.getLast? = some '/' then kpref ++ p
  else kpref ++ '/' :: p

/-- The amended composition rule for claim C2: when both parts are
non-empty, `key_prefix` is first trimmed of every trailing `'/'` and then
joined to the stripped path with exactly one `'/'` (so a prefix already
ending in `'/'` also receives exactly one separator, its trailing slashes
being removed rather than kept literally). -/
def amendedKeyC2 (kpref req_path : List Char) : List Char :=
  let p := trimLeadSlashChars req_path
  if kpref = [] then p
  else if p = [] then trimTrailSlashChars kpref
  else trimTrailSlashChars kpref ++ '/' :: p

/-! ## Parser lemmas -/

theorem stripPrefixChars_append (p l : List Char) :
    stripPrefixChars p (p ++ l) = some l := by
  induction p with
  | nil => rfl
  | cons a ps ih => simp [stripPrefixChars, ih]

theorem takeWhile_no_slash (b k : List Char) (hb : ∀ c ∈ b, c ≠ '/') :
    (b ++ '/' :: k).takeWhile (fun c => c != '/') = b := by
  induction b with
  | nil => simp
  | cons a bs ih =>
    have ha : a ≠ '/' := hb a (by simp)
    simp only [List.cons_append, List.takeWhile_cons]
    simp [ha, ih (fun c hc => hb c (by simp [hc]))]

theorem dropWhile_no_slash (b k : List Char) (hb : ∀ c ∈ b, c ≠ '/') :
    (b ++ '/' :: k).dropWhile (fun c => c != '/') = '/' :: k := by
  induction b with
  | nil => simp
  | cons a bs ih =>
    have ha : a ≠ '/' := hb a (by simp)
    simp only [List.cons_append, List.dropWhile_cons]
    simp [ha, ih (fun c hc => hb c (by simp [hc]))]

/-- C6: for every storage URI `s3://bucket/key` whose bucket is non-empty
and contains no `'/'`, both the Mapping's parser (src/types.rs) and the
Config's parser (src/config.rs) return exactly the pair `(bucket, key)`,
the key verbatim (including any trailing `'/'`, since `k` here is an
arbitrary character list). -/
theorem c6_parsers_exact (b k : List Char) (_hb : b ≠ []) (hslash : '/' ∉ b) :
    mapping_parse_chars ("s3://".toList ++ (b ++ '/' :: k)) = some (b, k) ∧
    config_parse_chars ("s3://".toList ++ (b ++ '/' :: k)) = .ok (b, k) := by
  have hb' : ∀ c ∈ b, c ≠ '/' := fun c hc h => hslash (h ▸ hc)
  constructor
  · unfold mapping_parse_chars
    simp only [stripPrefixChars_append, dropWhile_no_slash b k hb',
      takeWhile_no_slash b k hb']
  · unfold config_parse_chars
    simp only [stripPrefixChars_append, dropWhile_no_slash b k hb',
      takeWhile_no_slash b k hb']

theorem c6_parsers_exact_witness :
    mapping_parse_chars ("s3://".toList ++ ("my-bucket".toList ++ '/' :: "docs/".toList)) =
      some ("my-bucket".toList, "docs/".toList) ∧
    config_parse_chars ("s3://".toList ++ ("my-bucket".toList ++ '/' :: "docs/".toList)) =
      .ok ("my-bucket".toList, "docs/".toList) :=
  c6_parsers_exact "my-bucket".toList "docs/".toList (by decide) (by decide)

/-- C7, counterexample: the input `s3:///key` is accepted by the storage
URL parser (src/types.rs `Mapping::parse_s3_url`) and by `add`'s
validation (src/manager.rs line 54, the `starts_with("s3://")` check
embedded as `strStartsWith`), yet the returned bucket is the EMPTY
string — refuting the claim that every accepted input yields a non-empty
bucket. -/
theorem c7_counterexample :
    mapping_parse_chars "s3:///key".toList = some ([], "key".toList) ∧
    strStartsWith "s3:///key" "s3://" = true := by
  decide

/-- C7, amended: the parser succeeds for every input carrying the
`s3://` scheme prefix, regardless of what follows — in particular the
bucket component (everything before the first `'/'`) may be empty;
neither the parser nor `add`'s validation enforces bucket
non-emptiness. -/
theorem c7_amended (rest : List Char) :
    (mapping_parse_chars ("s3://".toList ++ rest)).isSome = true := by
  unfold mapping_parse_chars
  rw [stripPrefixChars_append]
  cases h : rest.dropWhile (fun c => c != '/') <;> simp [h]

/-- C2, counterexample: for the stored key prefix `a//` (ending in `'/'`)
and request path `/x`, the claim's rule concatenates literally and yields
`a//x`, but the code (src/server.rs lines 207-220) trims every trailing
`'/'` of the prefix before inserting exactly one separator, yielding
`a/x`. -/
theorem c2_counterexample :
    composeKeyChars "a//".toList "/x".toList ≠
      specComposedKeyC2 "a//".toList "/x".toList := by
  decide

/-- C2, amended: the composed key equals the request path with all leading
`'/'` stripped when the key prefix is empty; the key prefix trimmed of all
trailing `'/'` when the stripped path is empty; otherwise the key prefix
trimmed of all trailing `'/'` joined to the stripped path with exactly one
`'/'` — a prefix already ending in `'/'` also receives exactly one
separator (its trailing slashes are removed, not kept literally). -/
theorem c2_amended (kpref req_path : List Char) :
    composeKeyChars kpref req_path = amendedKeyC2 kpref req_path := rfl

/-! ## Association-list tables (the embedding of `HashMap<Uuid, _>`) -/

/-- Table lookup (`HashMap::get`). -/
def alookup {α : Type} : List (Nat × α) → Nat → Option α
  | [], _ => none
  | (k', v) :: t, k => if k' = k then some v else alookup t k

/-- Removal of a key (`HashMap::remove`, as far as lookups observe it). -/
def aremove {α : Type} : List (Nat × α) → Nat → List (Nat × α)
  | [], _ => []
  | (k', v) :: t, k => if k' = k then aremove t k else (k', v) :: aremove t k

/-- Insertion (`HashMap::insert`): binds `k` to `v`, replacing any previous
binding. -/
def ainsert {α : Type} (l : List (Nat × α)) (k : Nat) (v : α) : List (Nat × α) :=
  (k, v) :: aremove l k

/-- In-place mutation of the entry at `k` (`HashMap::get_mut` followed by a
write). -/
def aupdate {α : Type} : List (Nat × α) → Nat → (α → α) → List (Nat × α)
  | [], _, _ => []
  | (k', v) :: t, k, f =>
    if k' = k then (k', f v) :: aupdate t k f else (k', v) :: aupdate t k f

theorem alookup_aremove_self {α : Type} (l : List (Nat × α)) (k : Nat) :
    alookup (aremove l k) k = none := by
  induction l with
  | nil => rfl
  | cons p t ih =>
    obtain ⟨k', v⟩ := p
    by_cases h : k' = k <;> simp [aremove, alookup, h, ih]

theorem alookup_aremove_ne {α : Type} (l : List (Nat × α)) (k k' : Nat)
    (h : k' ≠ k) : alookup (aremove l k) k' = alookup l k' := by
  induction l with
  | nil => rfl
  | cons p t ih =>
    obtain ⟨k'', v⟩ := p
    have hne : k ≠ k' := fun e => h e.symm
    by_cases h1 : k'' = k
    · subst h1
      simp [aremove, alookup, hne, ih]
    · by_cases h2 : k'' = k' <;> simp [aremove, alookup, h1, h2, h, hne, ih]

theorem alookup_ainsert_self {α : Type} (l : List (Nat × α)) (k : Nat) (v : α) :
    alookup (ainsert l k v) k = some v := by
  simp [ainsert, alookup]

theorem alookup_ainsert_ne {α : Type} (l : List (Nat × α)) (k : Nat) (v : α)
    (k' : Nat) (h : k' ≠ k) : alookup (ainsert l k v) k' = alookup l k' := by
  have hne : k ≠ k' := fun e => h e.symm
  simp [ainsert, alookup, hne, alookup_aremove_ne l k k' h]

theorem alookup_aupdate_self {α : Type} (l : List (Nat × α)) (k : Nat)
    (f : α → α) : alookup (aupdate l k f) k = (alookup l k).map f := by
  induction l with
  | nil => rfl
  | cons p t ih =>
    obtain ⟨k', v⟩ := p
    by_cases h : k' = k <;> simp [aupdate, alookup, h, ih]

theorem alookup_aupdate_ne {α : Type} (l : List (Nat × α)) (k : Nat)
    (f : α → α) (k' : Nat) (h : k' ≠ k) :
    alookup (aupdate l k f) k' = alookup l k' := by
  induction l with
  | nil => rfl
  | cons p t ih =>
    obtain ⟨k'', v⟩ := p
    have hne : k ≠ k' := fun e => h e.symm
    by_cases h1 : k'' = k
    · subst h1
      simp [aupdate, alookup, hne, ih]
    · by_cases h2 : k'' = k' <;> simp [aupdate, alookup, h1, h2, h, hne, ih]

/-! ## The lifecycle manager (src/manager.rs)

`MappingManager` holds the mapping table and the task-handle table; a
spawned refresh loop is represented by a `RunningTask` (its `tokio`
task), carrying the `Mapping` value the closure captured at spawn time
and a fresh token identifying the spawned loop.  `tasks` maps an id to
the token of the handle stored for it; aborting a handle removes the
corresponding loop from `running`, while merely overwriting a handle in
`tasks` (as `HashMap::insert` does in `start_refresh_task`) leaves the
old loop running, exactly as dropping a tokio `JoinHandle` detaches the
task instead of aborting it. -/

/-- A spawned refresh loop: its handle token and the mapping captured by
the spawned closure. -/
structure RunningTask where
  token : Nat
  captured : Mapping
deriving DecidableEq, Repr

/-- The manager state: the mapping table, the task-handle table, the set
of actually-running spawned loops, and a fresh-token counter. -/
structure MState where
  mappings : List (Nat × Mapping)
  tasks : List (Nat × Nat)
  running : List RunningTask
  nextTok : Nat
deriving DecidableEq, Repr

/-- `MappingManager::new`: empty tables. -/
def initState : MState := ⟨[], [], [], 0⟩

/-- src/manager.rs `stop_refresh_task` (lines 218-223): remove the handle
for `id` from the task table and abort it — the abort kills exactly the
spawned loop that handle refers to. -/
def stop_refresh_task (s : MState) (id : Nat) : MState :=
  match alookup s.tasks id with
  | some t =>
    { s with tasks := aremove s.tasks id,
             running := s.running.filter
               (fun r => !(r.captured.id == id && r.token == t)) }
  | none => s

/-- src/manager.rs `start_refresh_task` (lines 171-215): spawn a fresh
refresh loop capturing `m`, then insert its handle into the task table —
overwriting (and thereby detaching, not aborting) any previous handle for
`m.id`.  The source function always returns `Ok(())`. -/
def start_refresh_task (s : MState) (m : Mapping) : MState :=
  { s with running := ⟨s.nextTok, m⟩ :: s.running,
           tasks := ainsert s.tasks m.id s.nextTok,
           nextTok := s.nextTok + 1 }

/-- src/manager.rs `MappingManager::add_mapping` (lines 46-75): validate
the `s3://` prefix, set status `Active`, stamp `updated_at`, insert, and
start the refresh task (which cannot fail, so the rollback branch of the
source is dead code). -/
def add_mapping (s : MState) (m : Mapping) (now : Nat) :
    Except String Nat × MState :=
  if !(strStartsWith m.s3_url "s3://") then
    (.error "S3 URL must start with s3://", s)
  else
    let m' := { m with status := .Active, updated_at := now }
    let s1 := { s with mappings := ainsert s.mappings m.id m' }
    (.ok m.id, start_refresh_task s1 m')

/-- src/manager.rs `MappingManager::get_mapping` (lines 78-81). -/
def get_mapping (s : MState) (id : Nat) : Option Mapping :=
  alookup s.mappings id

/-- src/manager.rs `MappingManager::update_mapping` (lines 91-114): stop
the existing task, replace the stored record wholesale with `updates`
(stamping `updated_at`), and restart a task — capturing `updates`, with
its own id — only when `updates.status` is `Active`. -/
def update_mapping (s : MState) (id : Nat) (updates : Mapping) (now : Nat) :
    Except String Unit × MState :=
  let s1 := stop_refresh_task s id
  match alookup s1.mappings id with
  | some _ =>
    let newTable := aupdate s1.mappings id (fun _ => { updates with updated_at := now })
    let s2 := { s1 with mappings := newTable }
    if updates.status = .Active then (.ok (), start_refresh_task s2 updates)
    else (.ok (), s2)
  | none => (.error "Mapping not found", s1)

/-- src/manager.rs `MappingManager::delete_mapping` (lines 118-129): stop
the task, then remove the mapping, failing with "Mapping not found" when
the id is absent. -/
def delete_mapping (s : MState) (id : Nat) : Except String Unit × MState :=
  let s1 := stop_refresh_task s id
  match alookup s1.mappings id with
  | some _ => (.ok (), { s1 with mappings := aremove s1.mappings id })
  | none => (.error "Mapping not found", s1)

/-- src/manager.rs `MappingManager::pause_mapping` (lines 133-147): stop
the task, set status `Paused` unconditionally (no precondition on the
current status), stamp `updated_at`. -/
def pause_mapping (s : MState) (id : Nat) (now : Nat) :
    Except String Unit × MState :=
  let s1 := stop_refresh_task s id
  match alookup s1.mappings id with
  | some _ =>
    let newTable := aupdate s1.mappings id
      (fun m => { m with status := .Paused, updated_at := now })
    (.ok (), { s1 with mappings := newTable })
  | none => (.error "Mapping not found", s1)

/-- src/manager.rs `MappingManager::resume_mapping` (lines 151-168): set
status `Active` unconditionally, stamp `updated_at`, and start a fresh
task capturing the mutated record — WITHOUT stopping any existing task
first. -/
def resume_mapping (s : MState) (id : Nat) (now : Nat) :
    Except String Unit × MState :=
  match alookup s.mappings id with
  | some m =>
    let m' := { m with status := .Active, updated_at := now }
    let s1 := { s with mappings := aupdate s.mappings id (fun _ => m') }
    (.ok (), start_refresh_task s1 m')
  | none => (.error "Mapping not found", s)

/-! ## The refresh protocol (src/manager.rs `refresh_url`, lines 228-298) -/

/-- The fallible inner block of `refresh_url`: build a `Config` from the
captured mapping (validating the `s3://` prefix, src/config.rs lines
20-23), parse it with the Config parser, ask the signed-URL provider
(`sign bucket key presign_duration`), then the DNS publisher
(`dns hosted_zone_id short_url presigned_url`).  The providers are
abstract, so every outcome of the external calls is covered. -/
def refresh_compute (m : Mapping)
    (sign : String → String → Nat → Except String String)
    (dns : String → String → String → Except String Unit)
    (presign_dur : Nat) : Except String Unit :=
  if !(strStartsWith m.s3_url "s3://") then .error "S3 URL must start with s3://"
  else
    match config_parse_chars m.s3_url.toList with
    | .error e => .error e
    | .ok (bucket, key) =>
      match sign (String.mk bucket) (String.mk key) presign_dur with
      | .error e => .error e
      | .ok url => dns m.hosted_zone_id m.short_url url

/-- The status write-back of `refresh_url` (lines 261-297): look up the
stored mapping under the captured mapping's id; on success set
`last_refresh`, `next_refresh`, status `Active`, clear `last_error` and
emit a success log record; on failure set status `Error`, a non-empty
`last_error` and emit a failure record; when the mapping is no longer
stored, do nothing.  The function is total: no error ever propagates to
the caller. -/
def refreshWriteBack (table : List (Nat × Mapping)) (m : Mapping)
    (result : Except String Unit) (now : Nat) :
    List (Nat × Mapping) × List RefreshLog :=
  match alookup table m.id with
  | none => (table, [])
  | some _ =>
    match result with
    | .ok _ =>
      (aupdate table m.id (fun st =>
        { st with last_refresh := some now,
                  next_refresh := some (now + m.refresh_interval_secs),
                  status := .Active, last_error := none }),
       [⟨m.id, now, true, "Successfully refreshed presigned URL"⟩])
    | .error e =>
      (aupdate table m.id (fun st =>
        { st with status := .Error,
                  last_error := some ("Failed to refresh URL: " ++ e) }),
       [⟨m.id, now, false, "Failed to refresh URL: " ++ e⟩])

/-- One whole refresh attempt (src/manager.rs `refresh_url`): the fallible
computation followed by the status write-back.  Its Lean type — returning
the new table and the emitted log records, with no `Except` — mirrors the
source's `()` return type: a refresh attempt never returns an error to
its caller. -/
def refresh_url (table : List (Nat × Mapping)) (m : Mapping)
    (sign : String → String → Nat → Except String String)
    (dns : String → String → String → Except String Unit)
    (presign_dur now : Nat) : List (Nat × Mapping) × List RefreshLog :=
  refreshWriteBack table m (refresh_compute m sign dns presign_dur) now

/-! ## Basic state lemmas -/

theorem stop_mappings (s : MState) (id : Nat) :
    (stop_refresh_task s id).mappings = s.mappings := by
  unfold stop_refresh_task
  split <;> rfl

theorem start_mappings (s : MState) (m : Mapping) :
    (start_refresh_task s m).mappings = s.mappings := rfl

theorem start_running (s : MState) (m : Mapping) :
    (start_refresh_task s m).running = ⟨s.nextTok, m⟩ :: s.running := rfl

theorem stop_running_mem (s : MState) (id : Nat) (r : RunningTask)
    (hr : r ∈ s.running) (hne : r.captured.id ≠ id) :
    r ∈ (stop_refresh_task s id).running := by
  unfold stop_refresh_task
  split
  · simp only [List.mem_filter]
    exact ⟨hr, by simp [hne]⟩
  · exact hr

/-! ## Claim C8: add with a malformed source is all-or-nothing -/

/-- C8: for every manager state and draft mapping whose `s3_url` lacks the
`s3://` prefix, `add_mapping` fails with the `InvalidSource` error
("S3 URL must start with s3://") and returns the state completely
unchanged — no mapping inserted, no task-table entry, no running task. -/
theorem c8_add_invalid_unchanged (s : MState) (m : Mapping) (now : Nat)
    (h : strStartsWith m.s3_url "s3://" = false) :
    add_mapping s m now = (.error "S3 URL must start with s3://", s) := by
  unfold add_mapping
  rw [h]
  rfl

/-- Concrete instance of `c8_add_invalid_unchanged`: a draft with source
`https://example.com/file` (the mapping of the repository's
`test_mapping_validation` test) is rejected and the empty state is
returned untouched. -/
theorem c8_add_invalid_unchanged_witness :
    add_mapping initState
      ⟨7, "https://example.com/file", "files.example.com", "Z1", .Pending,
        300, 3600, 0, 0, none, none, none⟩ 3 =
      (.error "S3 URL must start with s3://", initState) :=
  c8_add_invalid_unchanged initState
    ⟨7, "https://example.com/file", "files.example.com", "Z1", .Pending,
      300, 3600, 0, 0, none, none, none⟩ 3 (by decide)

/-! ## Claim C9: delete on a missing id, and non-idempotence -/

/-- C9: `delete_mapping` on an id absent from the mapping table returns
the `NotFound` error ("Mapping not found") and leaves the mapping table
unchanged; and after a successful delete of an existing id, a second
delete of the same id returns `NotFound` — delete is not idempotent. -/
theorem c9_delete_not_found (s : MState) (id : Nat) :
    (alookup s.mappings id = none →
      (delete_mapping s id).1 = .error "Mapping not found" ∧
      (delete_mapping s id).2.mappings = s.mappings) ∧
    (∀ m, alookup s.mappings id = some m →
      (delete_mapping s id).1 = .ok () ∧
      (delete_mapping (delete_mapping s id).2 id).1 =
        .error "Mapping not found") := by
  constructor
  · intro h
    constructor
    · simp [delete_mapping, stop_mappings, h]
    · simp [delete_mapping, stop_mappings, h]
  · intro m h
    constructor
    · simp [delete_mapping, stop_mappings, h]
    · simp [delete_mapping, stop_mappings, h, alookup_aremove_self]

/-- Fixture mapping for the C9 witness. -/
def c9m : Mapping := ⟨0, "s3://b/k", "h", "Z", .Active, 300, 3600, 0, 0, none, none, none⟩

/-- Fixture state for the C9 witness: one stored mapping with id 0. -/
def c9s : MState := ⟨[(0, c9m)], [], [], 1⟩

/-- Concrete instance of `c9_delete_not_found`: deleting the absent id 5
signals "Mapping not found" and leaves the table as it was; deleting id 0
succeeds, and deleting it a second time signals "Mapping not found". -/
theorem c9_delete_not_found_witness :
    ((delete_mapping c9s 5).1 = .error "Mapping not found" ∧
      (delete_mapping c9s 5).2.mappings = c9s.mappings) ∧
    ((delete_mapping c9s 0).1 = .ok () ∧
      (delete_mapping (delete_mapping c9s 0).2 0).1 =
        .error "Mapping not found") :=
  ⟨(c9_delete_not_found c9s 5).1 (by decide),
    (c9_delete_not_found c9s 0).2 c9m (by decide)⟩

/-! ## Claim C10: pause and resume are status-agnostic -/

/-- C10: `pause_mapping` and `resume_mapping` succeed on every existing
mapping whatever its current status (the quantified `m` carries an
arbitrary status): pause stores status `Paused`, resume stores status
`Active`, both stamping `updated_at`; and both return the `NotFound`
error exactly when the id is absent — the Pending/Active/Paused/Error
transition restrictions are not enforced as preconditions. -/
theorem c10_pause_resume_status_agnostic (s : MState) (id : Nat) (now : Nat) :
    (∀ m, alookup s.mappings id = some m →
      (pause_mapping s id now).1 = .ok () ∧
      alookup (pause_mapping s id now).2.mappings id =
        some { m with status := .Paused, updated_at := now } ∧
      (resume_mapping s id now).1 = .ok () ∧
      alookup (resume_mapping s id now).2.mappings id =
        some { m with status := .Active, updated_at := now }) ∧
    (alookup s.mappings id = none →
      (pause_mapping s id now).1 = .error "Mapping not found" ∧
      (resume_mapping s id now).1 = .error "Mapping not found") := by
  constructor
  · intro m h
    refine ⟨?_, ?_, ?_, ?_⟩
    · simp [pause_mapping, stop_mappings, h]
    · simp only [pause_mapping, stop_mappings, h, alookup_aupdate_self]
      rfl
    · simp [resume_mapping, h]
    · simp only [resume_mapping, h, start_mappings, alookup_aupdate_self]
      rfl
  · intro h
    constructor
    · simp [pause_mapping, stop_mappings, h]
    · simp [resume_mapping, h]

/-- Fixture mapping for the C10 witness: stored in status `Error`. -/
def c10m : Mapping := ⟨4, "s3://b/k", "h", "Z", .Error, 300, 3600, 0, 0, none, none, some "boom"⟩

/-- Fixture state for the C10 witness. -/
def c10s : MState := ⟨[(4, c10m)], [], [], 0⟩

/-- Concrete instance of `c10_pause_resume_status_agnostic`: a mapping in
status `Error` is paused (to `Paused`) and resumed (to `Active`)
successfully. -/
theorem c10_pause_resume_status_agnostic_witness :
    (pause_mapping c10s 4 9).1 = .ok () ∧
    alookup (pause_mapping c10s 4 9).2.mappings 4 =
      some { c10m with status := .Paused, updated_at := 9 } ∧
    (resume_mapping c10s 4 9).1 = .ok () ∧
    alookup (resume_mapping c10s 4 9).2.mappings 4 =
      some { c10m with status := .Active, updated_at := 9 } :=
  (c10_pause_resume_status_agnostic c10s 4 9).1 c10m (by decide)

/-! ## Claim C5: immutability of the stored id -/

/-- Fixture mapping stored under key 0 for the C5 counterexample. -/
def c5m : Mapping := ⟨0, "s3://b/k", "h", "Z", .Active, 300, 3600, 0, 0, none, none, none⟩

/-- Replacement record carrying the different id 1 (status `Pending`, so
no task is started by the update). -/
def c5r : Mapping := ⟨1, "s3://b/k2", "h2", "Z", .Pending, 300, 3600, 0, 0, none, none, none⟩

/-- Fixture state for the C5 counterexample. -/
def c5s : MState := ⟨[(0, c5m)], [], [], 0⟩

/-- C5, counterexample: `update_mapping` replaces the stored record
wholesale (`*mapping = updates.clone()`, src/manager.rs line 101), so
updating the entry stored under table key 0 with a replacement carrying
id 1 leaves a stored mapping whose `id` field is 1, not the original
key 0 — refuting the claim that update leaves the stored id equal to the
original id even when the replacement carries a different id. -/
theorem c5_counterexample :
    (alookup (update_mapping c5s 0 c5r 5).2.mappings 0).map Mapping.id ≠
      some 0 := by
  decide

/-- C5, amended: the table key itself never changes, and every operation
except a mismatched update preserves the stored `id` field: `pause`,
`resume` and the refresh write-back leave the stored id equal to the
table key, and `update` does so exactly when the replacement record
carries the stored key as its id (which the HTTP layer guarantees by
constructing the replacement from the fetched record); a replacement
with a different id overwrites the stored id field. -/
theorem c5_amended (s : MState) (k : Nat) (m : Mapping) (now : Nat)
    (hm : alookup s.mappings k = some m) (hid : m.id = k) :
    (∀ u : Mapping, u.id = k →
      (alookup (update_mapping s k u now).2.mappings k).map Mapping.id =
        some k) ∧
    ((alookup (pause_mapping s k now).2.mappings k).map Mapping.id = some k) ∧
    ((alookup (resume_mapping s k now).2.mappings k).map Mapping.id = some k) ∧
    (∀ (mc : Mapping) (result : Except String Unit), mc.id = k →
      (alookup (refreshWriteBack s.mappings mc result now).1 k).map
        Mapping.id = some k) := by
  refine ⟨?_, ?_, ?_, ?_⟩
  · intro u hu
    simp only [update_mapping, stop_mappings, hm]
    by_cases hst : u.status = .Active
    · rw [if_pos hst]
      simp only [start_mappings, alookup_aupdate_self, hm]
      simp [hu]
    · rw [if_neg hst]
      simp only [alookup_aupdate_self, hm]
      simp [hu]
  · simp only [pause_mapping, stop_mappings, hm, alookup_aupdate_self]
    simp [hid]
  · simp only [resume_mapping, hm, start_mappings, alookup_aupdate_self]
    simp [hid]
  · intro mc result hmc
    unfold refreshWriteBack
    rw [hmc, hm]
    cases result with
    | ok _ =>
      simp only [alookup_aupdate_self, hm]
      simp [hid]
    | error e =>
      simp only [alookup_aupdate_self, hm]
      simp [hid]

/-- Concrete instance of `c5_amended`: updating key 0 with a replacement
whose id is also 0 keeps the stored id 0, and pausing keeps the stored
id 0. -/
theorem c5_amended_witness :
    (alookup (update_mapping c5s 0 { c5r with id := 0 } 5).2.mappings 0).map
      Mapping.id = some 0 ∧
    (alookup (pause_mapping c5s 0 5).2.mappings 0).map Mapping.id = some 0 :=
  ⟨(c5_amended c5s 0 c5m 5 (by decide) (by decide)).1
      { c5r with id := 0 } (by decide),
    (c5_amended c5s 0 c5m 5 (by decide) (by decide)).2.1⟩

/-! ## Claim C3: one refresh attempt absorbs every outcome -/

/-- C3: a refresh attempt (`refresh_url`, a total function — the source
returns `()`, never an error) with any outcome of the external signing
and DNS calls: it never touches the stored mappings of other ids; when
the fallible part succeeds it stores status `Active`, clears
`last_error`, stamps `last_refresh` and `next_refresh` and emits exactly
one success record; when the fallible part fails with any error `e` it
stores status `Error` with the non-empty description
`"Failed to refresh URL: " ++ e` and emits exactly one failure record. -/
theorem c3_refresh_never_propagates (table : List (Nat × Mapping))
    (m stored : Mapping)
    (sign : String → String → Nat → Except String String)
    (dns : String → String → String → Except String Unit)
    (presign_dur now : Nat)
    (hm : alookup table m.id = some stored) :
    (∀ k, k ≠ m.id →
      alookup (refresh_url table m sign dns presign_dur now).1 k =
        alookup table k) ∧
    (refresh_compute m sign dns presign_dur = .ok () →
      alookup (refresh_url table m sign dns presign_dur now).1 m.id =
        some { stored with last_refresh := some now,
                           next_refresh := some (now + m.refresh_interval_secs),
                           status := .Active, last_error := none } ∧
      (refresh_url table m sign dns presign_dur now).2 =
        [⟨m.id, now, true, "Successfully refreshed presigned URL"⟩]) ∧
    (∀ e, refresh_compute m sign dns presign_dur = .error e →
      ("Failed to refresh URL: " ++ e) ≠ "" ∧
      alookup (refresh_url table m sign dns presign_dur now).1 m.id =
        some { stored with status := .Error,
                           last_error := some ("Failed to refresh URL: " ++ e) } ∧
      (refresh_url table m sign dns presign_dur now).2 =
        [⟨m.id, now, false, "Failed to refresh URL: " ++ e⟩]) := by
  refine ⟨?_, ?_, ?_⟩
  · intro k hk
    unfold refresh_url refreshWriteBack
    rw [hm]
    cases refresh_compute m sign dns presign_dur with
    | ok _ => simp only [alookup_aupdate_ne _ _ _ _ hk]
    | error e => simp only [alookup_aupdate_ne _ _ _ _ hk]
  · intro hres
    unfold refresh_url refreshWriteBack
    rw [hm, hres]
    constructor
    · simp only [alookup_aupdate_self, hm]
      rfl
    · rfl
  · intro e hres
    refine ⟨?_, ?_, ?_⟩
    · intro habs
      have h1 := congrArg String.length habs
      rw [String.length_append] at h1
      rw [show "Failed to refresh URL: ".length = 23 from rfl] at h1
      rw [show ("" : String).length = 0 from rfl] at h1
      omega
    · unfold refresh_url refreshWriteBack
      rw [hm, hres]
      simp only [alookup_aupdate_self, hm]
      rfl
    · unfold refresh_url refreshWriteBack
      rw [hm, hres]

/-- Fixture mapping for the C3 witness. -/
def c3m : Mapping := ⟨2, "s3://b/k", "h", "Z", .Active, 300, 3600, 0, 0, none, none, none⟩

/-- Fixture table for the C3 witness. -/
def c3t : List (Nat × Mapping) := [(2, c3m), (9, { c3m with id := 9 })]

/-- A signing provider that always fails, for the C3 witness (the spec's
end-to-end scenario D). -/
def c3sign : String → String → Nat → Except String String :=
  fun _ _ _ => .error "boom"

/-- A DNS publisher that always succeeds, for the C3 witness. -/
def c3dns : String → String → String → Except String Unit :=
  fun _ _ _ => .ok ()

/-- Concrete instance of `c3_refresh_never_propagates`: with a signing
provider that always fails, the refresh attempt on mapping 2 leaves
mapping 9 untouched, stores status `Error` with a non-empty description
on mapping 2, and emits one failure record. -/
theorem c3_refresh_never_propagates_witness :
    alookup (refresh_url c3t c3m c3sign c3dns 300 11).1 9 = alookup c3t 9 ∧
    (("Failed to refresh URL: " ++ "boom") ≠ "" ∧
      alookup (refresh_url c3t c3m c3sign c3dns 300 11).1 2 =
        some { c3m with status := .Error,
                        last_error := some ("Failed to refresh URL: " ++ "boom") } ∧
      (refresh_url c3t c3m c3sign c3dns 300 11).2 =
        [⟨2, 11, false, "Failed to refresh URL: " ++ "boom"⟩]) :=
  ⟨(c3_refresh_never_propagates c3t c3m c3m c3sign c3dns 300 11 rfl).1 9
      (by decide),
    (c3_refresh_never_propagates c3t c3m c3m c3sign c3dns 300 11 rfl).2.2
      "boom" rfl⟩

/-! ## The request router (src/server.rs `proxy_handler`, lines 168-240) -/

/-- The HTTP outcomes the proxy handler can produce: 404, 503, 500, or a
temporary (302) redirect. -/
inductive HttpResponse where
  | notFound (msg : String)
  | serviceUnavailable (msg : String)
  | internalError (msg : String)
  | redirect (url : String)
deriving DecidableEq, Repr

/-- src/server.rs `proxy_handler`: find the first mapping whose
`short_url` equals the inbound `Host`; 404 if none; 503 naming the
current status if it is not `Active`; otherwise parse the mapping's
storage URL, compose the object key from the base key and the request
path, and ask the signed-URL provider — responding with a temporary
redirect to the returned URL (or 500 on a parse/signing failure).  The
handler takes no DNS publisher at all: the proxy path never publishes
DNS. -/
def proxy_handler (mappings : List Mapping) (hostname path : String)
    (sign : String → String → Nat → Except String String) : HttpResponse :=
  match mappings.find? (fun mp => mp.short_url == hostname) with
  | none => .notFound ("No mapping configured for " ++ hostname)
  | some m =>
    if m.status ≠ .Active then
      .serviceUnavailable ("Mapping is currently " ++ m.status.display)
    else
      match mapping_parse_chars m.s3_url.toList with
      | none => .internalError ("Failed to parse S3 URL: S3 URL must start with s3://")
      | some (bucket, base_key) =>
        match sign (String.mk bucket)
            (String.mk (composeKeyChars base_key path.toList))
            m.presign_duration_secs with
        | .error e => .internalError ("Failed to generate presigned URL: " ++ e)
        | .ok url => .redirect url

/-- C4: for every mapping list, hostname and path — when no mapping's
`public_hostname` (`short_url`) matches the inbound hostname, the router
responds "not found"; when the (first) matching mapping's status is not
`Active`, it responds "service unavailable" naming that status; and when
the match is `Active`, the parse succeeds, and the provider returns a
signed URL for the composed key, it responds with a temporary redirect
whose target is exactly that URL.  No DNS publish occurs on this path:
`proxy_handler` does not even receive a DNS publisher. -/
theorem c4_router_responses (ms : List Mapping) (h p : String)
    (sign : String → String → Nat → Except String String) :
    (ms.find? (fun mp => mp.short_url == h) = none →
      proxy_handler ms h p sign =
        .notFound ("No mapping configured for " ++ h)) ∧
    (∀ m, ms.find? (fun mp => mp.short_url == h) = some m →
      m.status ≠ .Active →
      proxy_handler ms h p sign =
        .serviceUnavailable ("Mapping is currently " ++ m.status.display)) ∧
    (∀ m bucket base_key url,
      ms.find? (fun mp => mp.short_url == h) = some m →
      m.status = .Active →
      mapping_parse_chars m.s3_url.toList = some (bucket, base_key) →
      sign (String.mk bucket) (String.mk (composeKeyChars base_key p.toList))
        m.presign_duration_secs = .ok url →
      proxy_handler ms h p sign = .redirect url) := by
  refine ⟨?_, ?_, ?_⟩
  · intro hf
    simp only [proxy_handler, hf]
  · intro m hf hst
    simp only [proxy_handler, hf, if_pos hst]
  · intro m bucket base_key url hf hst hparse hsign
    have hne : ¬ m.status ≠ .Active := fun hc => hc hst
    simp only [proxy_handler, hf, if_neg hne, hparse, hsign]

/-- Fixture mapping for the C4 witness (the spec's end-to-end scenario B:
source `s3://b/base`, host `h`). -/
def c4m : Mapping := ⟨3, "s3://b/base", "h", "Z", .Active, 300, 3600, 0, 0, none, none, none⟩

/-- A signing provider returning a fixed URL, for the C4 witness. -/
def c4sign : String → String → Nat → Except String String :=
  fun _ _ _ => .ok "https://signed.example/u"

/-- Concrete instance of `c4_router_responses`: host `h`, path `/x/y`
against the scenario-B mapping redirects to the provider's URL (the
provider being asked for the composed key `base/x/y`). -/
theorem c4_router_responses_witness :
    proxy_handler [c4m] "h" "/x/y" c4sign =
      .redirect "https://signed.example/u" :=
  (c4_router_responses [c4m] "h" "/x/y" c4sign).2.2 c4m "b".toList
    "base".toList "https://signed.example/u" (by decide) (by decide)
    (by decide) rfl

/-! ## The scheduled-variant transition system (claim C1)

A state transition is any manager operation (with arbitrary arguments and
call time) or the firing of one refresh iteration of any running loop
with an arbitrary outcome of the external calls (the write-back of
src/manager.rs lines 261-297, applied to the loop's captured mapping).
`Reach` is the set of states reachable from the empty manager. -/

/-- One transition of the scheduled-variant manager. -/
inductive Step : MState → MState → Prop where
  | add (s : MState) (m : Mapping) (now : Nat) : Step s (add_mapping s m now).2
  | update (s : MState) (id : Nat) (u : Mapping) (now : Nat) :
      Step s (update_mapping s id u now).2
  | delete (s : MState) (id : Nat) : Step s (delete_mapping s id).2
  | pause (s : MState) (id : Nat) (now : Nat) : Step s (pause_mapping s id now).2
  | resume (s : MState) (id : Nat) (now : Nat) : Step s (resume_mapping s id now).2
  | refresh (s : MState) (r : RunningTask) (result : Except String Unit)
      (now : Nat) (hr : r ∈ s.running) :
      Step s { s with
        mappings := (refreshWriteBack s.mappings r.captured result now).1 }

/-- States reachable from the empty manager by any sequence of
operations and refresh outcomes. -/
inductive Reach : MState → Prop where
  | init : Reach initState
  | step {s s' : MState} : Reach s → Step s s' → Reach s'

/-- `id` has (at least one) running refresh loop: a spawned loop whose
captured mapping carries this id (the id whose stored record the loop's
write-backs target). -/
def hasTask (s : MState) (id : Nat) : Prop :=
  ∃ r ∈ s.running, r.captured.id = id

/-- The number of running refresh loops for `id`. -/
def taskCount (s : MState) (id : Nat) : Nat :=
  (s.running.filter (fun r => r.captured.id == id)).length

/-- The lock-step invariant claimed for the scheduled variant: an id has
a running refresh task iff its stored status is `Active`, and every
`Active` mapping has exactly one running task. -/
def lockstep (s : MState) : Prop :=
  ∀ id : Nat,
    (hasTask s id ↔ ∃ m, alookup s.mappings id = some m ∧ m.status = .Active) ∧
    ((∃ m, alookup s.mappings id = some m ∧ m.status = .Active) →
      taskCount s id = 1)

/-- Fixture draft mapping for the C1 counterexample. -/
def c1m : Mapping := ⟨0, "s3://b/k", "h", "Z", .Pending, 300, 3600, 0, 0, none, none, none⟩

/-- The state after `add`: mapping 0 is `Active` with one running loop. -/
def c1sA : MState := (add_mapping initState c1m 1).2

/-- The single running loop of `c1sA` (token 0, captured mapping
`Active`). -/
def c1r : RunningTask := ⟨0, { c1m with status := .Active, updated_at := 1 }⟩

/-- The state after mapping 0's loop performs one refresh whose external
call fails: status becomes `Error`, but the loop keeps running. -/
def c1sB : MState :=
  { c1sA with mappings :=
      (refreshWriteBack c1sA.mappings c1r.captured (.error "dns failure") 2).1 }

/-- C1, counterexample: the state reached by `add` followed by one failed
refresh is reachable, yet violates the claimed invariant — mapping 0 has
a running refresh task while its stored status is `Error`, not `Active`
(the refresh failure sets status `Error` but the spawned loop keeps
running on its schedule; the task table still holds its handle). -/
theorem c1_counterexample : Reach c1sB ∧ ¬ lockstep c1sB := by
  constructor
  · exact Reach.step (Reach.step Reach.init (Step.add initState c1m 1))
      (Step.refresh c1sA c1r (.error "dns failure") 2 (by decide))
  · intro h
    rcases (h 0).1.mp ⟨c1r, by decide, rfl⟩ with ⟨m, hm, hst⟩
    have hconcrete : (alookup c1sB.mappings 0).map Mapping.status =
        some MappingStatus.Error := by decide
    rw [hm] at hconcrete
    simp only [Option.map_some'] at hconcrete
    rw [hst] at hconcrete
    exact (by decide : some MappingStatus.Active ≠ some MappingStatus.Error)
      hconcrete

/-! ### State characterizations of the operations, for the C1 induction -/

theorem stop_nextTok (s : MState) (id : Nat) :
    (stop_refresh_task s id).nextTok = s.nextTok := by
  unfold stop_refresh_task
  split <;> rfl

theorem stop_preserves_hasTask (s : MState) (id k : Nat) (hk : k ≠ id)
    (ht : hasTask s k) : hasTask (stop_refresh_task s id) k := by
  rcases ht with ⟨r, hr, hrid⟩
  exact ⟨r, stop_running_mem s id r hr (by rw [hrid]; exact hk), hrid⟩

theorem add_state_invalid (s : MState) (m : Mapping) (now : Nat)
    (h : strStartsWith m.s3_url "s3://" = false) :
    (add_mapping s m now).2 = s := by
  simp [add_mapping, h]

theorem add_mappings_valid (s : MState) (m : Mapping) (now : Nat)
    (h : strStartsWith m.s3_url "s3://" = true) :
    (add_mapping s m now).2.mappings =
      ainsert s.mappings m.id { m with status := .Active, updated_at := now } := by
  simp [add_mapping, h, start_mappings]

theorem add_running_valid (s : MState) (m : Mapping) (now : Nat)
    (h : strStartsWith m.s3_url "s3://" = true) :
    (add_mapping s m now).2.running =
      ⟨s.nextTok, { m with status := .Active, updated_at := now }⟩ ::
        s.running := by
  simp [add_mapping, h, start_running]

theorem update_state_absent (s : MState) (id : Nat) (u : Mapping) (now : Nat)
    (h : alookup s.mappings id = none) :
    (update_mapping s id u now).2 = stop_refresh_task s id := by
  simp [update_mapping, stop_mappings, h]

theorem update_mappings_found (s : MState) (id : Nat) (u : Mapping) (now : Nat)
    (mold : Mapping) (hm : alookup s.mappings id = some mold) :
    (update_mapping s id u now).2.mappings =
      aupdate s.mappings id (fun _ => { u with updated_at := now }) := by
  simp only [update_mapping, stop_mappings, hm]
  by_cases hst : u.status = .Active
  · rw [if_pos hst]
    simp [start_mappings]
  · rw [if_neg hst]

theorem update_running_found_active (s : MState) (id : Nat) (u : Mapping)
    (now : Nat) (mold : Mapping) (hm : alookup s.mappings id = some mold)
    (hst : u.status = .Active) :
    (update_mapping s id u now).2.running =
      ⟨(stop_refresh_task s id).nextTok, u⟩ ::
        (stop_refresh_task s id).running := by
  simp only [update_mapping, stop_mappings, hm]
  rw [if_pos hst]
  simp [start_running]

theorem update_running_found_inactive (s : MState) (id : Nat) (u : Mapping)
    (now : Nat) (mold : Mapping) (hm : alookup s.mappings id = some mold)
    (hst : ¬ u.status = .Active) :
    (update_mapping s id u now).2.running =
      (stop_refresh_task s id).running := by
  simp only [update_mapping, stop_mappings, hm]
  rw [if_neg hst]

theorem delete_state_absent (s : MState) (id : Nat)
    (h : alookup s.mappings id = none) :
    (delete_mapping s id).2 = stop_refresh_task s id := by
  simp [delete_mapping, stop_mappings, h]

theorem delete_mappings_found (s : MState) (id : Nat) (mold : Mapping)
    (hm : alookup s.mappings id = some mold) :
    (delete_mapping s id).2.mappings = aremove s.mappings id := by
  simp [delete_mapping, stop_mappings, hm]

theorem delete_running_found (s : MState) (id : Nat) (mold : Mapping)
    (hm : alookup s.mappings id = some mold) :
    (delete_mapping s id).2.running = (stop_refresh_task s id).running := by
  simp [delete_mapping, stop_mappings, hm]

theorem pause_state_absent (s : MState) (id : Nat) (now : Nat)
    (h : alookup s.mappings id = none) :
    (pause_mapping s id now).2 = stop_refresh_task s id := by
  simp [pause_mapping, stop_mappings, h]

theorem pause_mappings_found (s : MState) (id : Nat) (now : Nat)
    (mold : Mapping) (hm : alookup s.mappings id = some mold) :
    (pause_mapping s id now).2.mappings =
      aupdate s.mappings id
        (fun m => { m with status := .Paused, updated_at := now }) := by
  simp [pause_mapping, stop_mappings, hm]

theorem pause_running_found (s : MState) (id : Nat) (now : Nat)
    (mold : Mapping) (hm : alookup s.mappings id = some mold) :
    (pause_mapping s id now).2.running = (stop_refresh_task s id).running := by
  simp [pause_mapping, stop_mappings, hm]

theorem resume_state_absent (s : MState) (id : Nat) (now : Nat)
    (h : alookup s.mappings id = none) :
    (resume_mapping s id now).2 = s := by
  simp [resume_mapping, h]

theorem resume_mappings_found (s : MState) (id : Nat) (now : Nat)
    (mold : Mapping) (hm : alookup s.mappings id = some mold) :
    (resume_mapping s id now).2.mappings =
      aupdate s.mappings id
        (fun _ => { mold with status := .Active, updated_at := now }) := by
  simp [resume_mapping, hm, start_mappings]

theorem resume_running_found (s : MState) (id : Nat) (now : Nat)
    (mold : Mapping) (hm : alookup s.mappings id = some mold) :
    (resume_mapping s id now).2.running =
      ⟨s.nextTok, { mold with status := .Active, updated_at := now }⟩ ::
        s.running := by
  simp [resume_mapping, hm, start_running]

theorem refreshWriteBack_alookup_ne (table : List (Nat × Mapping))
    (mc : Mapping) (result : Except String Unit) (now k : Nat)
    (hk : k ≠ mc.id) :
    alookup (refreshWriteBack table mc result now).1 k = alookup table k := by
  unfold refreshWriteBack
  cases h : alookup table mc.id with
  | none => rfl
  | some stored =>
    cases result with
    | ok _ => simp only [alookup_aupdate_ne _ _ _ _ hk]
    | error e => simp only [alookup_aupdate_ne _ _ _ _ hk]

/-- Every stored mapping whose `id` field equals its table key and whose
status is `Active` has at least one running refresh loop. -/
def activeHasTask (s : MState) : Prop :=
  ∀ k m, alookup s.mappings k = some m → m.id = k → m.status = .Active →
    hasTask s k

theorem activeHasTask_step {s s' : MState} (hs : Step s s')
    (ih : activeHasTask s) : activeHasTask s' := by
  cases hs with
  | add m now =>
    cases hsw : strStartsWith m.s3_url "s3://" with
    | false => rw [add_state_invalid s m now hsw]; exact ih
    | true =>
      intro k m₀ hlook hid hst
      rw [add_mappings_valid s m now hsw] at hlook
      by_cases hk : k = m.id
      · subst hk
        refine ⟨⟨s.nextTok, { m with status := .Active, updated_at := now }⟩,
          ?_, rfl⟩
        rw [add_running_valid s m now hsw]
        exact List.mem_cons_self _ _
      · rw [alookup_ainsert_ne _ _ _ _ hk] at hlook
        rcases ih k m₀ hlook hid hst with ⟨rt, hrt, hrid⟩
        refine ⟨rt, ?_, hrid⟩
        rw [add_running_valid s m now hsw]
        exact List.mem_cons_of_mem _ hrt
  | update id u now =>
    cases hm : alookup s.mappings id with
    | none =>
      rw [update_state_absent s id u now hm]
      intro k m₀ hlook hid hst
      rw [stop_mappings] at hlook
      have hk : k ≠ id := by
        intro e
        rw [e, hm] at hlook
        exact Option.noConfusion hlook
      exact stop_preserves_hasTask s id k hk (ih k m₀ hlook hid hst)
    | some mold =>
      intro k m₀ hlook hid hst
      rw [update_mappings_found s id u now mold hm] at hlook
      by_cases hk : k = id
      · subst hk
        rw [alookup_aupdate_self, hm] at hlook
        simp only [Option.map_some', Option.some.injEq] at hlook
        subst hlook
        have hu : u.status = .Active := hst
        refine ⟨⟨(stop_refresh_task s k).nextTok, u⟩, ?_, hid⟩
        rw [update_running_found_active s k u now mold hm hu]
        exact List.mem_cons_self _ _
      · rw [alookup_aupdate_ne _ _ _ _ hk] at hlook
        rcases ih k m₀ hlook hid hst with ⟨rt, hrt, hrid⟩
        have hmem : rt ∈ (stop_refresh_task s id).running :=
          stop_running_mem s id rt hrt (by rw [hrid]; exact hk)
        by_cases hu : u.status = .Active
        · refine ⟨rt, ?_, hrid⟩
          rw [update_running_found_active s id u now mold hm hu]
          exact List.mem_cons_of_mem _ hmem
        · refine ⟨rt, ?_, hrid⟩
          rw [update_running_found_inactive s id u now mold hm hu]
          exact hmem
  | delete id =>
    cases hm : alookup s.mappings id with
    | none =>
      rw [delete_state_absent s id hm]
      intro k m₀ hlook hid hst
      rw [stop_mappings] at hlook
      have hk : k ≠ id := by
        intro e
        rw [e, hm] at hlook
        exact Option.noConfusion hlook
      exact stop_preserves_hasTask s id k hk (ih k m₀ hlook hid hst)
    | some mold =>
      intro k m₀ hlook hid hst
      rw [delete_mappings_found s id mold hm] at hlook
      by_cases hk : k = id
      · subst hk
        rw [alookup_aremove_self] at hlook
        exact Option.noConfusion hlook
      · rw [alookup_aremove_ne _ _ _ hk] at hlook
        rcases ih k m₀ hlook hid hst with ⟨rt, hrt, hrid⟩
        refine ⟨rt, ?_, hrid⟩
        rw [delete_running_found s id mold hm]
        exact stop_running_mem s id rt hrt (by rw [hrid]; exact hk)
  | pause id now =>
    cases hm : alookup s.mappings id with
    | none =>
      rw [pause_state_absent s id now hm]
      intro k m₀ hlook hid hst
      rw [stop_mappings] at hlook
      have hk : k ≠ id := by
        intro e
        rw [e, hm] at hlook
        exact Option.noConfusion hlook
      exact stop_preserves_hasTask s id k hk (ih k m₀ hlook hid hst)
    | some mold =>
      intro k m₀ hlook hid hst
      rw [pause_mappings_found s id now mold hm] at hlook
      by_cases hk : k = id
      · subst hk
        rw [alookup_aupdate_self, hm] at hlook
        simp only [Option.map_some', Option.some.injEq] at hlook
        subst hlook
        have hcontra : MappingStatus.Paused = MappingStatus.Active := hst
        exact absurd hcontra (by decide)
      · rw [alookup_aupdate_ne _ _ _ _ hk] at hlook
        rcases ih k m₀ hlook hid hst with ⟨rt, hrt, hrid⟩
        refine ⟨rt, ?_, hrid⟩
        rw [pause_running_found s id now mold hm]
        exact stop_running_mem s id rt hrt (by rw [hrid]; exact hk)
  | resume id now =>
    cases hm : alookup s.mappings id with
    | none => rw [resume_state_absent s id now hm]; exact ih
    | some mold =>
      intro k m₀ hlook hid hst
      rw [resume_mappings_found s id now mold hm] at hlook
      by_cases hk : k = id
      · subst hk
        rw [alookup_aupdate_self, hm] at hlook
        simp only [Option.map_some', Option.some.injEq] at hlook
        subst hlook
        refine ⟨⟨s.nextTok, { mold with status := .Active, updated_at := now }⟩,
          ?_, hid⟩
        rw [resume_running_found s k now mold hm]
        exact List.mem_cons_self _ _
      · rw [alookup_aupdate_ne _ _ _ _ hk] at hlook
        rcases ih k m₀ hlook hid hst with ⟨rt, hrt, hrid⟩
        refine ⟨rt, ?_, hrid⟩
        rw [resume_running_found s id now mold hm]
        exact List.mem_cons_of_mem _ hrt
  | refresh r result now hr =>
    intro k m₀ hlook hid hst
    by_cases hk : k = r.captured.id
    · subst hk
      exact ⟨r, hr, rfl⟩
    · replace hlook :
          alookup (refreshWriteBack s.mappings r.captured result now).1 k =
            some m₀ := hlook
      rw [refreshWriteBack_alookup_ne s.mappings r.captured result now k hk]
        at hlook
      exact ih k m₀ hlook hid hst

/-- C1, amended: in every reachable state of the scheduled variant, every
stored mapping whose `id` field equals its table key (which every
operation issued through the HTTP layer maintains) and whose status is
`Active` has at least one running refresh task.  The claimed "if and only
if" and "exactly one" parts are refuted by `c1_counterexample`: a failed
refresh stores status `Error` while its task keeps running on schedule,
and `resume` on an already-`Active` mapping starts a second task without
stopping the first. -/
theorem c1_active_has_running_task (s : MState) (hreach : Reach s) :
    ∀ k m, alookup s.mappings k = some m → m.id = k → m.status = .Active →
      hasTask s k := by
  induction hreach with
  | init =>
    intro k m hlook _ _
    exact Option.noConfusion hlook
  | step _ hstep ih => exact activeHasTask_step hstep ih

/-- Concrete instance of `c1_active_has_running_task`: in the reachable
state right after `add`, mapping 0 is `Active` and has a running task. -/
theorem c1_active_has_running_task_witness : hasTask c1sA 0 :=
  c1_active_has_running_task c1sA
    (Reach.step Reach.init (Step.add initState c1m 1)) 0
    { c1m with status := .Active, updated_at := 1 } (by decide) (by decide)
    (by decide)

end S3Buddy
